import Mathlib

/-!
Shallow embedding of the caching / instrumentation / background-dispatch core of
`src/backend_performance_tuning.py`.

Modelling conventions:
* Wall-clock time (`time.time()`) is a logical clock `now : Nat` carried in the
  execution context; reading the clock is free, and handlers may advance it.
* Handler results and Redis values are their serialized byte-string form,
  modelled as `String` (`redis.get` returns bytes; Python truthiness of a bytes
  value is non-emptiness).
* Python exceptions are modelled with `Except`: a raised exception propagates
  while keeping the side effects performed before the raise (so computations
  have type `Ctx → Except PyError α × Ctx`).
* Observable actions (base-handler bodies running, cache accesses, DB commits,
  thread dispatches, emitted timing log lines) are recorded in an event trace
  inside the context, so that claims about "invoked exactly once", "no record
  emitted", or "dispatch after commit" are statable.
-/

namespace BPT

/-- Serialized values exchanged with the Redis backend (Python `bytes`,
modelled as strings). -/
abbrev Val := String

/-- Python truthiness of a bytes value: non-empty. -/
def truthy (v : Val) : Bool := v != ""

/-- Errors: a Redis connection failure (backend unreachable), or an exception
raised by a handler body. -/
inductive PyError where
  | connectionError : PyError
  | handlerError (msg : String) : PyError
deriving Repr, DecidableEq

/-- The timing record logged by the `performance_metrics` decorator
(`logging.info("Execution time for {name}: {t} seconds")`). -/
structure TimingRecord where
  handlerName : String
  startTime : Nat
  endTime : Nat
  duration : Nat
deriving Repr, DecidableEq

/-- Observable events of one run. -/
inductive Event where
  | invoke (handlerName : String) : Event
  | cacheGet (key : String) : Event
  | cacheSet (key : String) (ttl : Nat) : Event
  | dbCommit : Event
  | dispatch (taskName : String) (userId : Nat) : Event
  | record (r : TimingRecord) : Event
deriving Repr, DecidableEq

/-- State of the Redis backend: an association list of
`(key, value, expiresAt)` entries (newest first; `find?` sees the newest
binding of a key, matching overwrite semantics of `SETEX`), plus a
reachability flag modelling backend availability. -/
structure RedisState where
  store : List (String × Val × Nat)
  available : Bool
deriving Repr, DecidableEq

/-- Row of the `User` table. -/
structure UserRow where
  id : Nat
  username : String
  email : String
deriving Repr, DecidableEq

/-- Row of the `Post` table. -/
structure PostRow where
  id : Nat
  user_id : Nat
  content : String
deriving Repr, DecidableEq

/-- Execution context of a request: logical clock, Redis state, database
tables, and the trace of observable events so far. -/
structure Ctx where
  now : Nat
  redis : RedisState
  users : List UserRow
  posts : List PostRow
  trace : List Event
deriving Repr, DecidableEq

/-- A Python computation: transforms the context and either returns a value or
raises, keeping the side effects performed before the raise. -/
abbrev PyM (α : Type) := Ctx → Except PyError α × Ctx

instance {ε α : Type} [DecidableEq ε] [DecidableEq α] :
    DecidableEq (Except ε α) := fun x y =>
  match x, y with
  | Except.ok a, Except.ok b =>
      if h : a = b then Decidable.isTrue (by rw [h])
      else Decidable.isFalse (fun hc => h (by cases hc; rfl))
  | Except.error a, Except.error b =>
      if h : a = b then Decidable.isTrue (by rw [h])
      else Decidable.isFalse (fun hc => h (by cases hc; rfl))
  | Except.ok _, Except.error _ =>
      Decidable.isFalse (fun hc => Except.noConfusion hc)
  | Except.error _, Except.ok _ =>
      Decidable.isFalse (fun hc => Except.noConfusion hc)

/-- Pure part of a Redis `GET` at time `now`: the newest binding of `key`,
treated as absent once its expiry time has been reached (Redis expires an
entry exactly `ttl` seconds after `SETEX`). -/
def redisLookup (st : RedisState) (now : Nat) (key : String) : Option Val :=
  match st.store.find? (fun e => e.1 == key) with
  | some e => if now < e.2.2 then some e.2.1 else none
  | none => none

/-- Model of `redis.get(key)` (external backend, §4.1 of the spec): returns
the stored value or `none`, raising a connection error when the backend is
unreachable. -/
def redisGet (key : String) : PyM (Option Val) := fun ctx =>
  if ctx.redis.available then
    (Except.ok (redisLookup ctx.redis ctx.now key),
     { ctx with trace := ctx.trace ++ [Event.cacheGet key] })
  else
    (Except.error PyError.connectionError, ctx)

/-- Model of `redis.setex(key, ttl, v)` (external backend, §4.1 of the spec):
stores `v` under `key` expiring at `now + ttl`, raising a connection error
when the backend is unreachable. -/
def redisSetex (key : String) (ttl : Nat) (v : Val) : PyM Unit := fun ctx =>
  if ctx.redis.available then
    (Except.ok (),
     { ctx with
        redis := { ctx.redis with
                    store := (key, v, ctx.now + ttl) :: ctx.redis.store },
        trace := ctx.trace ++ [Event.cacheSet key ttl] })
  else
    (Except.error PyError.connectionError, ctx)

/-- Python `str(n)` for a non-negative int: decimal digits. -/
def pyStr (n : Nat) : String := Nat.repr n

/-- Remaining elements of Python `str(args)` for a tuple with at least two
elements: `", x"` for each further element. -/
def sepStr : List Nat → String
  | [] => ""
  | b :: rest => ", " ++ pyStr b ++ sepStr rest

/-- Python `str(args)` for a tuple of ints: `"()"`, `"(3,)"`, `"(1, 2)"`. -/
def pyReprTuple : List Nat → String
  | [] => "()"
  | [a] => "(" ++ pyStr a ++ ",)"
  | a :: b :: rest => "(" ++ pyStr a ++ sepStr (b :: rest) ++ ")"

/-- The cache key built at line 50 of the source:
`cache_key = f"{func.__name__}:{args}"`. -/
def cache_key (funcName : String) (args : List Nat) : String :=
  funcName ++ ":" ++ pyReprTuple args

/-- The `performance_metrics` decorator (source lines 34-43): reads the clock,
runs the wrapped function, reads the clock again and logs one timing record,
then returns the result. An exception of the wrapped function propagates
before the logging line is reached (the source has no try/finally). -/
def performance_metrics {α : Type} (funcName : String) (func : α → PyM Val) :
    α → PyM Val :=
  fun a ctx =>
    let start_time := ctx.now
    match func a ctx with
    | (Except.ok result, ctx1) =>
        let end_time := ctx1.now
        (Except.ok result,
         { ctx1 with trace := ctx1.trace ++
             [Event.record ⟨funcName, start_time, end_time,
                            end_time - start_time⟩] })
    | (Except.error e, ctx1) => (Except.error e, ctx1)

/-- Miss path of the `cache_result` wrapper (source lines 55-58): run the
wrapped function, store its result with `redis.setex`, return it. A failure
of either the function or the store propagates (the source has no
try/except). -/
def cacheMiss (timeout : Nat) (key : String) (func : List Nat → PyM Val)
    (args : List Nat) : PyM Val := fun ctx =>
  match func args ctx with
  | (Except.error e, ctx1) => (Except.error e, ctx1)
  | (Except.ok result, ctx1) =>
    match redisSetex key timeout result ctx1 with
    | (Except.error e, ctx2) => (Except.error e, ctx2)
    | (Except.ok _, ctx2) => (Except.ok result, ctx2)

/-- The `cache_result(timeout)` decorator (source lines 46-60): build the key,
`redis.get` it, and short-circuit on a truthy cached value
(`if cached_result:` — Python truthiness, so `None` and empty bytes both fall
through to the miss path). -/
def cache_result (timeout : Nat) (funcName : String)
    (func : List Nat → PyM Val) : List Nat → PyM Val := fun args ctx =>
  let key := cache_key funcName args
  match redisGet key ctx with
  | (Except.error e, ctx1) => (Except.error e, ctx1)
  | (Except.ok (some v), ctx1) =>
      if truthy v then (Except.ok v, ctx1)
      else cacheMiss timeout key func args ctx1
  | (Except.ok none, ctx1) => cacheMiss timeout key func args ctx1

/-- Model of `threading.Thread(target=task, args=(arg,)).start()` (source
line 99): scheduling only — the new thread runs outside the request context,
so the dispatching context only records a dispatch event; the task body is
not executed in the dispatching context and no handle, result or error
channel is retained. -/
def threadStart (taskName : String) (_task : Nat → PyM Unit) (arg : Nat) :
    PyM Unit :=
  fun ctx =>
    (Except.ok (),
     { ctx with trace := ctx.trace ++ [Event.dispatch taskName arg] })

/-- The background task (source lines 63-66): `time.sleep(10)` simulating ten
seconds of work when the task body actually runs. -/
def long_running_task (_user_id : Nat) : PyM Unit := fun ctx =>
  (Except.ok (),
   { ctx with now := ctx.now + 10,
              trace := ctx.trace ++ [Event.invoke "long_running_task"] })

/-- Serialization of the `get_users` response
(`jsonify([{...} for user in users])`). -/
def serializeUsers (us : List UserRow) : Val :=
  "[" ++ String.intercalate ", "
    (us.map (fun u =>
      "\x7b\"id\": " ++ pyStr u.id ++ ", \"username\": \"" ++ u.username ++
      "\", \"email\": \"" ++ u.email ++ "\"\x7d")) ++ "]"

/-- Serialization of the `get_posts` response
(`jsonify([{...} for post in posts])`). -/
def serializePosts (ps : List PostRow) : Val :=
  "[" ++ String.intercalate ", "
    (ps.map (fun p =>
      "\x7b\"id\": " ++ pyStr p.id ++ ", \"user_id\": " ++ pyStr p.user_id ++
      ", \"content\": \"" ++ p.content ++ "\"\x7d")) ++ "]"

/-- Body of the `get_users` route (source lines 70-72): query all users and
serialize them. -/
def get_users_base : Unit → PyM Val := fun _ ctx =>
  (Except.ok (serializeUsers ctx.users),
   { ctx with trace := ctx.trace ++ [Event.invoke "get_users"] })

/-- The `get_users` route as composed by its decorators (source lines 68-72):
instrumentation only, no cache. -/
def get_users : Unit → PyM Val := performance_metrics "get_users" get_users_base

/-- Body of the `get_posts` route (source lines 77-79): query all posts and
serialize them. -/
def get_posts_base : List Nat → PyM Val := fun _ ctx =>
  (Except.ok (serializePosts ctx.posts),
   { ctx with trace := ctx.trace ++ [Event.invoke "get_posts"] })

/-- The `get_posts` route as composed by its decorators (source lines 74-79):
`@performance_metrics` above `@cache_result(timeout=120)`, so instrumentation
wraps the cache wrapper, which wraps the body. -/
def get_posts : List Nat → PyM Val :=
  performance_metrics "get_posts" (cache_result 120 "get_posts" get_posts_base)

/-- Body of the `add_user` route (source lines 83-89): insert the new row and
commit, then return the confirmation message. -/
def add_user_base : String × String → PyM Val := fun pr ctx =>
  let new_user : UserRow := ⟨ctx.users.length + 1, pr.1, pr.2⟩
  (Except.ok "\x7b\"message\": \"User added\"\x7d",
   { ctx with users := ctx.users ++ [new_user],
              trace := ctx.trace ++ [Event.invoke "add_user", Event.dbCommit] })

/-- The `add_user` route as composed (source lines 81-89): instrumentation
only, no cache wrapper. -/
def add_user : String × String → PyM Val :=
  performance_metrics "add_user" add_user_base

/-- Body of the `add_post` route (source lines 93-100): insert the new row and
commit, then start the background thread, then return the confirmation. -/
def add_post_base : Nat × String → PyM Val := fun pr ctx =>
  let new_post : PostRow := ⟨ctx.posts.length + 1, pr.1, pr.2⟩
  let ctx1 := { ctx with
                  posts := ctx.posts ++ [new_post],
                  trace := ctx.trace ++
                    [Event.invoke "add_post", Event.dbCommit] }
  match threadStart "long_running_task" long_running_task pr.1 ctx1 with
  | (_, ctx2) => (Except.ok "\x7b\"message\": \"Post added\"\x7d", ctx2)

/-- The `add_post` route as composed (source lines 91-100): instrumentation
only, no cache wrapper. -/
def add_post : Nat × String → PyM Val :=
  performance_metrics "add_post" add_post_base

/-- A generic handler whose body computes `f args`, takes `cost` seconds, and
records its own invocation. -/
def pureHandler (name : String) (f : List Nat → Val) (cost : Nat) :
    List Nat → PyM Val :=
  fun args ctx =>
    (Except.ok (f args),
     { ctx with now := ctx.now + cost,
                trace := ctx.trace ++ [Event.invoke name] })

/-- A generic handler whose body raises after `cost` seconds. -/
def failingHandler (name : String) (msg : String) (cost : Nat) :
    List Nat → PyM Val :=
  fun _ ctx =>
    (Except.error (PyError.handlerError msg),
     { ctx with now := ctx.now + cost,
                trace := ctx.trace ++ [Event.invoke name] })

/-- A generic handler that leaves the backend unreachable before returning,
so that the store after the computation fails. -/
def outageHandler (name : String) (f : List Nat → Val) :
    List Nat → PyM Val :=
  fun args ctx =>
    (Except.ok (f args),
     { ctx with redis := { ctx.redis with available := false },
                trace := ctx.trace ++ [Event.invoke name] })

/-- Advance the wall clock by `w` seconds (time passing between calls). -/
def advance (w : Nat) (ctx : Ctx) : Ctx := { ctx with now := ctx.now + w }

/-- Event selector: an invocation of the handler body named `name`. -/
def isInvoke (name : String) : Event → Bool
  | Event.invoke n => n == name
  | _ => false

/-- How many times the handler body named `name` ran in a trace. -/
def invokeCount (name : String) (tr : List Event) : Nat :=
  (tr.filter (isInvoke name)).length

/-- Event selector: an emitted timing record. -/
def isRecord : Event → Bool
  | Event.record _ => true
  | _ => false

/-- How many timing records a trace contains. -/
def recordCount (tr : List Event) : Nat :=
  (tr.filter isRecord).length

/-- Event selector: a cache access (get or set). -/
def isCacheEvent : Event → Bool
  | Event.cacheGet _ => true
  | Event.cacheSet _ _ => true
  | _ => false

/-- An empty fresh context with a reachable, empty cache. -/
def ctx0 : Ctx :=
  { now := 0, redis := { store := [], available := true },
    users := [], posts := [], trace := [] }

/-- A fresh context whose cache backend is unreachable. -/
def ctxDown : Ctx :=
  { now := 0, redis := { store := [], available := false },
    users := [], posts := [], trace := [] }

/-- Decimal digit characters of `n`, most significant first (reference form of
the digit list underlying `Nat.repr`; used in proofs about cache keys). -/
def natDigits (n : Nat) : List Char :=
  if n < 10 then [Nat.digitChar n]
  else natDigits (n / 10) ++ [Nat.digitChar (n % 10)]
decreasing_by omega

/-- Numeric value of a decimal digit string, most significant digit first. -/
def digitsVal (l : List Char) : Nat :=
  l.foldl (fun a c => a * 10 + (c.toNat - 48)) 0

theorem empty_data : ("" : String).data = [] := rfl

theorem comma_space_data : (", " : String).data = [',', ' '] := rfl

theorem paren_pair_data : ("()" : String).data = ['(', ')'] := rfl

theorem open_paren_data : ("(" : String).data = ['('] := rfl

theorem close_paren_data : (")" : String).data = [')'] := rfl

theorem comma_close_data : (",)" : String).data = [',', ')'] := rfl

theorem colon_data : (":" : String).data = [':'] := rfl

theorem toDigitsCore_eq_natDigits :
    ∀ (fuel n : Nat) (ds : List Char), n < fuel →
      Nat.toDigitsCore 10 fuel n ds = natDigits n ++ ds := by
  intro fuel
  induction fuel with
  | zero => intro n ds h; omega
  | succ f ih =>
    intro n ds h
    by_cases h10 : n / 10 = 0
    · have hn : n < 10 := by omega
      have hm : n % 10 = n := Nat.mod_eq_of_lt hn
      simp only [Nat.toDigitsCore, h10, if_pos, hm]
      rw [natDigits, if_pos hn]
      rfl
    · have hlt : n / 10 < f := by omega
      simp only [Nat.toDigitsCore, h10, if_neg, ite_false]
      rw [ih (n / 10) (Nat.digitChar (n % 10) :: ds) hlt]
      conv_rhs => rw [natDigits, if_neg (by omega : ¬ n < 10)]
      simp

theorem pyStr_data (n : Nat) : (pyStr n).data = natDigits n := by
  show (Nat.repr n).data = natDigits n
  rw [Nat.repr, Nat.toDigits,
      toDigitsCore_eq_natDigits (n + 1) n [] (Nat.lt_succ_self n)]
  simp [List.asString]

theorem digitChar_isDigit {d : Nat} (h : d < 10) :
    (Nat.digitChar d).isDigit = true := by
  interval_cases d <;> decide

theorem digitChar_toNat {d : Nat} (h : d < 10) :
    (Nat.digitChar d).toNat - 48 = d := by
  interval_cases d <;> decide

theorem natDigits_ne_nil (n : Nat) : natDigits n ≠ [] := by
  by_cases h : n < 10 <;> rw [natDigits] <;> simp [h]

theorem natDigits_all_digit :
    ∀ (n : Nat), ∀ c ∈ natDigits n, c.isDigit = true := by
  intro n
  induction n using Nat.strong_induction_on with
  | _ n ih =>
    intro c hc
    by_cases h : n < 10
    · rw [natDigits, if_pos h] at hc
      simp at hc
      rw [hc]
      exact digitChar_isDigit h
    · rw [natDigits, if_neg h] at hc
      rcases List.mem_append.mp hc with h1 | h1
      · exact ih (n / 10) (by omega) c h1
      · simp at h1
        rw [h1]
        exact digitChar_isDigit (Nat.mod_lt _ (by omega))

theorem digitsVal_natDigits : ∀ n : Nat, digitsVal (natDigits n) = n := by
  intro n
  induction n using Nat.strong_induction_on with
  | _ n ih =>
    by_cases h : n < 10
    · rw [natDigits, if_pos h]
      show 0 * 10 + ((Nat.digitChar n).toNat - 48) = n
      rw [digitChar_toNat h]
      omega
    · rw [natDigits, if_neg h]
      rw [digitsVal, List.foldl_append]
      show (digitsVal (natDigits (n / 10))) * 10 +
        ((Nat.digitChar (n % 10)).toNat - 48) = n
      rw [ih (n / 10) (by omega), digitChar_toNat (Nat.mod_lt _ (by omega))]
      omega

theorem natDigits_inj {m n : Nat} (h : natDigits m = natDigits n) : m = n := by
  have hm := digitsVal_natDigits m
  rw [h, digitsVal_natDigits n] at hm
  omega

theorem digits_append_cancel :
    ∀ (d1 d2 r1 r2 : List Char),
      (∀ c ∈ d1, c.isDigit = true) → (∀ c ∈ d2, c.isDigit = true) →
      (∀ c, r1.head? = some c → c.isDigit = false) →
      (∀ c, r2.head? = some c → c.isDigit = false) →
      d1 ++ r1 = d2 ++ r2 → d1 = d2 := by
  intro d1
  induction d1 with
  | nil =>
    intro d2 r1 r2 hd1 hd2 hr1 hr2 heq
    cases d2 with
    | nil => rfl
    | cons c d2 =>
      simp at heq
      have hcd : c.isDigit = true := hd2 c (by simp)
      have hcn : c.isDigit = false := hr1 c (by rw [heq]; rfl)
      rw [hcd] at hcn
      cases hcn
  | cons a d1 ih =>
    intro d2 r1 r2 hd1 hd2 hr1 hr2 heq
    cases d2 with
    | nil =>
      simp at heq
      have had : a.isDigit = true := hd1 a (by simp)
      have han : a.isDigit = false := hr2 a (by rw [← heq]; rfl)
      rw [had] at han
      cases han
    | cons b d2 =>
      simp at heq
      obtain ⟨hab, htail⟩ := heq
      rw [hab,
          ih d2 r1 r2 (fun c hc => hd1 c (by simp [hc]))
            (fun c hc => hd2 c (by simp [hc])) hr1 hr2 htail]

theorem sepStr_data_cons (x : Nat) (xs : List Nat) :
    (sepStr (x :: xs)).data = ',' :: ' ' :: (natDigits x ++ (sepStr xs).data) := by
  show (", " ++ pyStr x ++ sepStr xs).data = _
  simp [String.data_append, comma_space_data, pyStr_data]

theorem sepStr_close_head (xs : List Nat) :
    ∀ c, ((sepStr xs).data ++ [')']).head? = some c → c.isDigit = false := by
  cases xs with
  | nil =>
    intro c hc
    rw [show sepStr [] = "" from rfl, empty_data] at hc
    simp at hc
    rw [← hc]
    rfl
  | cons x xs =>
    intro c hc
    rw [sepStr_data_cons] at hc
    simp at hc
    rw [← hc]
    rfl

theorem head_nondigit_ne_digits_append
    (d r l : List Char) (hne : d ≠ []) (hd : ∀ c ∈ d, c.isDigit = true)
    (hl : ∀ c, l.head? = some c → c.isDigit = false) : l ≠ d ++ r := by
  intro hc
  cases d with
  | nil => exact hne rfl
  | cons a d =>
    have ha : a.isDigit = true := hd a (by simp)
    have han : a.isDigit = false := hl a (by rw [hc]; rfl)
    rw [ha] at han
    cases han

theorem sepStr_close_inj :
    ∀ (xs ys : List Nat),
      (sepStr xs).data ++ [')'] = (sepStr ys).data ++ [')'] → xs = ys := by
  intro xs
  induction xs with
  | nil =>
    intro ys h
    cases ys with
    | nil => rfl
    | cons y ys =>
      rw [show sepStr [] = "" from rfl, empty_data, sepStr_data_cons] at h
      simp at h
  | cons x xs ih =>
    intro ys h
    cases ys with
    | nil =>
      rw [show sepStr [] = "" from rfl, empty_data, sepStr_data_cons] at h
      simp at h
    | cons y ys =>
      rw [sepStr_data_cons, sepStr_data_cons] at h
      simp only [List.cons_append, List.cons.injEq, List.append_assoc] at h
      obtain ⟨-, -, h⟩ := h
      have hxy : natDigits x = natDigits y :=
        digits_append_cancel (natDigits x) (natDigits y) _ _
          (natDigits_all_digit x) (natDigits_all_digit y)
          (sepStr_close_head xs) (sepStr_close_head ys) h
      rw [hxy] at h
      rw [natDigits_inj hxy, ih ys (List.append_cancel_left h)]

theorem pyReprTuple_data_nil : (pyReprTuple []).data = ['(', ')'] := rfl

theorem pyReprTuple_data_single (a : Nat) :
    (pyReprTuple [a]).data = '(' :: (natDigits a ++ [',', ')']) := by
  show ("(" ++ pyStr a ++ ",)").data = _
  simp [String.data_append, open_paren_data, comma_close_data, pyStr_data]

theorem pyReprTuple_data_cons (a b : Nat) (rest : List Nat) :
    (pyReprTuple (a :: b :: rest)).data =
      '(' :: (natDigits a ++ ((sepStr (b :: rest)).data ++ [')'])) := by
  show ("(" ++ pyStr a ++ sepStr (b :: rest) ++ ")").data = _
  simp [String.data_append, open_paren_data, close_paren_data, pyStr_data]

theorem comma_close_head :
    ∀ c, ([',', ')'] : List Char).head? = some c → c.isDigit = false := by
  intro c hc
  simp at hc
  rw [← hc]
  rfl

theorem pyReprTuple_data_inj :
    ∀ (as bs : List Nat),
      (pyReprTuple as).data = (pyReprTuple bs).data → as = bs := by
  intro as bs h
  match as, bs with
  | [], [] => rfl
  | [], b :: bs =>
    exfalso
    match bs with
    | [] =>
      rw [pyReprTuple_data_nil, pyReprTuple_data_single] at h
      simp at h
      exact head_nondigit_ne_digits_append (natDigits b) [',', ')'] [')']
        (natDigits_ne_nil b) (natDigits_all_digit b)
        (fun c hc => by simp at hc; rw [← hc]; rfl) h
    | b2 :: rest =>
      rw [pyReprTuple_data_nil, pyReprTuple_data_cons] at h
      simp at h
      exact head_nondigit_ne_digits_append (natDigits b) _ [')']
        (natDigits_ne_nil b) (natDigits_all_digit b)
        (fun c hc => by simp at hc; rw [← hc]; rfl) h
  | a :: as, [] =>
    exfalso
    match as with
    | [] =>
      rw [pyReprTuple_data_nil, pyReprTuple_data_single] at h
      simp at h
      exact head_nondigit_ne_digits_append (natDigits a) [',', ')'] [')']
        (natDigits_ne_nil a) (natDigits_all_digit a)
        (fun c hc => by simp at hc; rw [← hc]; rfl) h.symm
    | a2 :: rest =>
      rw [pyReprTuple_data_nil, pyReprTuple_data_cons] at h
      simp at h
      exact head_nondigit_ne_digits_append (natDigits a) _ [')']
        (natDigits_ne_nil a) (natDigits_all_digit a)
        (fun c hc => by simp at hc; rw [← hc]; rfl) h.symm
  | [a], [b] =>
    rw [pyReprTuple_data_single, pyReprTuple_data_single] at h
    simp only [List.cons.injEq, true_and] at h
    have : natDigits a = natDigits b :=
      digits_append_cancel (natDigits a) (natDigits b) [',', ')'] [',', ')']
        (natDigits_all_digit a) (natDigits_all_digit b)
        comma_close_head comma_close_head h
    rw [natDigits_inj this]
  | [a], b :: b2 :: rest =>
    exfalso
    rw [pyReprTuple_data_single, pyReprTuple_data_cons] at h
    simp only [List.cons.injEq, true_and] at h
    have hd : natDigits a = natDigits b :=
      digits_append_cancel (natDigits a) (natDigits b) [',', ')'] _
        (natDigits_all_digit a) (natDigits_all_digit b)
        comma_close_head (sepStr_close_head (b2 :: rest)) h
    rw [hd] at h
    have h2 := List.append_cancel_left h
    rw [sepStr_data_cons] at h2
    simp at h2
  | a :: a2 :: rest, [b] =>
    exfalso
    rw [pyReprTuple_data_single, pyReprTuple_data_cons] at h
    simp only [List.cons.injEq, true_and] at h
    have hd : natDigits a = natDigits b :=
      digits_append_cancel (natDigits a) (natDigits b) _ [',', ')']
        (natDigits_all_digit a) (natDigits_all_digit b)
        (sepStr_close_head (a2 :: rest)) comma_close_head h
    rw [hd] at h
    have h2 := List.append_cancel_left h
    rw [sepStr_data_cons] at h2
    simp at h2
  | a :: a2 :: rest, b :: b2 :: rest2 =>
    rw [pyReprTuple_data_cons, pyReprTuple_data_cons] at h
    simp only [List.cons.injEq, true_and] at h
    have hd : natDigits a = natDigits b :=
      digits_append_cancel (natDigits a) (natDigits b) _ _
        (natDigits_all_digit a) (natDigits_all_digit b)
        (sepStr_close_head (a2 :: rest)) (sepStr_close_head (b2 :: rest2)) h
    rw [hd] at h
    have h2 := List.append_cancel_left h
    rw [natDigits_inj hd, sepStr_close_inj (a2 :: rest) (b2 :: rest2) h2]

theorem redisLookup_none_mono {st : RedisState} {t t2 : Nat} {k : String}
    (h : redisLookup st t k = none) (ht : t ≤ t2) : redisLookup st t2 k = none := by
  rw [redisLookup] at h ⊢
  cases hf : st.store.find? (fun e => e.1 == k) with
  | none => rfl
  | some e =>
    rw [hf] at h
    have h2 : (if t < e.2.2 then some e.2.1 else none) = none := h
    show (if t2 < e.2.2 then some e.2.1 else none) = none
    by_cases hlt : t < e.2.2
    · rw [if_pos hlt] at h2
      cases h2
    · rw [if_neg (by omega : ¬ t2 < e.2.2)]

theorem redisLookup_cons_self (k : String) (v : Val) (e : Nat)
    (rest : List (String × Val × Nat)) (avail : Bool) (t : Nat) :
    redisLookup ⟨(k, v, e) :: rest, avail⟩ t k =
      if t < e then some v else none := by
  simp [redisLookup, List.find?]

theorem cache_result_down_eq (T : Nat) (name : String)
    (func : List Nat → PyM Val) (args : List Nat) (ctx : Ctx)
    (hdown : ctx.redis.available = false) :
    cache_result T name func args ctx =
      (Except.error PyError.connectionError, ctx) := by
  simp [cache_result, redisGet, hdown]

theorem cache_result_miss_eq (T : Nat) (name : String)
    (func : List Nat → PyM Val) (args : List Nat) (ctx : Ctx)
    (havail : ctx.redis.available = true)
    (hmiss : redisLookup ctx.redis ctx.now (cache_key name args) = none) :
    cache_result T name func args ctx =
      cacheMiss T (cache_key name args) func args
        { ctx with trace := ctx.trace ++ [Event.cacheGet (cache_key name args)] } := by
  simp [cache_result, redisGet, havail, hmiss]

theorem cache_result_hit_eq (T : Nat) (name : String)
    (func : List Nat → PyM Val) (args : List Nat) (ctx : Ctx) (v : Val)
    (havail : ctx.redis.available = true)
    (hhit : redisLookup ctx.redis ctx.now (cache_key name args) = some v)
    (htr : truthy v = true) :
    cache_result T name func args ctx =
      (Except.ok v,
       { ctx with trace := ctx.trace ++ [Event.cacheGet (cache_key name args)] }) := by
  simp [cache_result, redisGet, havail, hhit, htr]

theorem cache_result_falsy_eq (T : Nat) (name : String)
    (func : List Nat → PyM Val) (args : List Nat) (ctx : Ctx)
    (havail : ctx.redis.available = true)
    (hhit : redisLookup ctx.redis ctx.now (cache_key name args) = some "") :
    cache_result T name func args ctx =
      cacheMiss T (cache_key name args) func args
        { ctx with trace := ctx.trace ++ [Event.cacheGet (cache_key name args)] } := by
  simp [cache_result, redisGet, havail, hhit, truthy]

theorem cacheMiss_pure_eq (T : Nat) (key name : String) (f : List Nat → Val)
    (cost : Nat) (args : List Nat) (ctx : Ctx)
    (havail : ctx.redis.available = true) :
    cacheMiss T key (pureHandler name f cost) args ctx =
      (Except.ok (f args),
       { ctx with
          now := ctx.now + cost,
          redis := { ctx.redis with
            store := (key, f args, ctx.now + cost + T) :: ctx.redis.store },
          trace := ctx.trace ++ [Event.invoke name, Event.cacheSet key T] }) := by
  simp [cacheMiss, pureHandler, redisSetex, havail]

theorem cacheMiss_failing_eq (T : Nat) (key name msg : String)
    (cost : Nat) (args : List Nat) (ctx : Ctx) :
    cacheMiss T key (failingHandler name msg cost) args ctx =
      (Except.error (PyError.handlerError msg),
       { ctx with now := ctx.now + cost,
                  trace := ctx.trace ++ [Event.invoke name] }) := by
  simp [cacheMiss, failingHandler]

theorem cacheMiss_outage_eq (T : Nat) (key name : String) (f : List Nat → Val)
    (args : List Nat) (ctx : Ctx) :
    cacheMiss T key (outageHandler name f) args ctx =
      (Except.error PyError.connectionError,
       { ctx with redis := { ctx.redis with available := false },
                  trace := ctx.trace ++ [Event.invoke name] }) := by
  simp [cacheMiss, outageHandler, redisSetex]

/-- C8: the cache key builder `f"{func.__name__}:{args}"` is deterministic and
order-preserving: for a fixed handler identity, two argument tuples produce
the same key exactly when they are the same tuple, so identical arguments
always rebuild the same key and the same values supplied in a different
positional order (a different tuple) yield distinct keys. -/
theorem C8_holds (name : String) (as bs : List Nat) :
    cache_key name as = cache_key name bs ↔ as = bs := by
  constructor
  · intro h
    have hd := congrArg String.data h
    rw [cache_key, cache_key, String.data_append, String.data_append,
        String.data_append, String.data_append, List.append_assoc,
        List.append_assoc] at hd
    have h2 := List.append_cancel_left hd
    have h3 := List.append_cancel_left h2
    exact pyReprTuple_data_inj as bs h3
  · intro h
    rw [h]

/-- Witness for C8 at concrete inputs: the same values in a different
positional order produce a different cache key. -/
theorem C8_witness : cache_key "h" [1, 2] ≠ cache_key "h" [2, 1] :=
  fun hc => absurd ((C8_holds "h" [1, 2] [2, 1]).mp hc) (by decide)

/-- C9: `threading.Thread(target=..., args=(arg,)).start()` is fire-and-forget:
the dispatching context gets control back immediately (its clock does not
advance, while the task body itself takes 10 seconds when it runs), only a
dispatch event is recorded, and the dispatcher's outcome is identical for any
task body whatsoever — so no result, error or completion signal from the task
can reach the dispatching context. -/
theorem C9_holds (taskName : String) (task task2 : Nat → PyM Unit)
    (arg : Nat) (ctx : Ctx) :
    threadStart taskName task arg ctx =
      (Except.ok (),
       { ctx with trace := ctx.trace ++ [Event.dispatch taskName arg] }) ∧
    (threadStart taskName task arg ctx).2.now = ctx.now ∧
    threadStart taskName task arg ctx = threadStart taskName task2 arg ctx ∧
    (long_running_task arg ctx).2.now = ctx.now + 10 :=
  ⟨rfl, rfl, rfl, rfl⟩

/-- C2 counterexample: with the backend unreachable, the wrapped call does not
return `h(a)`'s result and does not invoke `h` — it raises the backend's
connection error to the caller (the source has no try/except around
`redis.get`). -/
theorem C2_counterexample :
    (cache_result 60 "h" (pureHandler "h" (fun _ => "6") 1) [3] ctxDown).1 =
      Except.error PyError.connectionError ∧
    invokeCount "h"
      (cache_result 60 "h" (pureHandler "h" (fun _ => "6") 1) [3] ctxDown).2.trace
      = 0 := by
  constructor <;> decide

/-- C2 amended: if the cache backend is unavailable, the wrapped call raises
the backend's connection error instead of degrading to a miss: a failing
`get` raises before the handler is invoked (the context is returned
unchanged), and a failing `setex` after the handler has computed its result
raises as well, discarding the computed result. -/
theorem C2_amended (T : Nat) (name : String) (func : List Nat → PyM Val)
    (f : List Nat → Val) (args : List Nat) (ctx ctx2 : Ctx)
    (hdown : ctx.redis.available = false)
    (havail : ctx2.redis.available = true)
    (hcold : redisLookup ctx2.redis ctx2.now (cache_key name args) = none) :
    cache_result T name func args ctx =
      (Except.error PyError.connectionError, ctx) ∧
    (cache_result T name (outageHandler name f) args ctx2).1 =
      Except.error PyError.connectionError := by
  refine ⟨cache_result_down_eq T name func args ctx hdown, ?_⟩
  rw [cache_result_miss_eq T name (outageHandler name f) args ctx2 havail hcold,
      cacheMiss_outage_eq]

/-- Witness for C2 at concrete inputs. -/
theorem C2_witness :
    ctxDown.redis.available = false ∧
    ctx0.redis.available = true ∧
    redisLookup ctx0.redis ctx0.now (cache_key "h" [3]) = none ∧
    cache_result 60 "h" (pureHandler "h" (fun _ => "6") 1) [3] ctxDown =
      (Except.error PyError.connectionError, ctxDown) :=
  ⟨by decide, by decide, by decide,
   (C2_amended 60 "h" (pureHandler "h" (fun _ => "6") 1) (fun _ => "6") [3]
      ctxDown ctx0 (by decide) (by decide) (by decide)).1⟩

/-- C3 counterexample: when the wrapped handler fails, the instrumentation
wrapper emits no timing record at all — the error propagates before the
logging line is reached (the source has no try/finally), contradicting the
claim that a record is emitted on the failure path. -/
theorem C3_counterexample :
    (performance_metrics "f" (failingHandler "f" "boom" 1) [] ctx0).1 =
      Except.error (PyError.handlerError "boom") ∧
    recordCount
      (performance_metrics "f" (failingHandler "f" "boom" 1) [] ctx0).2.trace
      = 0 := by
  constructor <;> decide

/-- C3 amended: on the success path, exactly one timing record is emitted
synchronously before control returns, and it satisfies
`endTime >= startTime` (given that the handler does not move the clock
backwards); on the failure path, the handler's error propagates unchanged
and no timing record is emitted. -/
theorem C3_amended (α : Type) (name : String) (func : α → PyM Val) (a : α)
    (ctx : Ctx) (hmono : ctx.now ≤ (func a ctx).2.now) :
    (∀ v ctx1, func a ctx = (Except.ok v, ctx1) →
       performance_metrics name func a ctx =
         (Except.ok v,
          { ctx1 with trace := ctx1.trace ++
              [Event.record ⟨name, ctx.now, ctx1.now, ctx1.now - ctx.now⟩] }) ∧
       ctx.now ≤ ctx1.now ∧
       recordCount (performance_metrics name func a ctx).2.trace =
         recordCount ctx1.trace + 1) ∧
    (∀ e ctx1, func a ctx = (Except.error e, ctx1) →
       performance_metrics name func a ctx = (Except.error e, ctx1)) := by
  constructor
  · intro v ctx1 hfa
    have hend : ctx.now ≤ ctx1.now := by rw [hfa] at hmono; exact hmono
    constructor
    · simp [performance_metrics, hfa]
    · refine ⟨hend, ?_⟩
      simp [performance_metrics, hfa, recordCount, List.filter_append, isRecord]
  · intro e ctx1 hfa
    simp [performance_metrics, hfa]

/-- C1 counterexample: for a handler whose result serializes to a falsy value
(empty bytes), two back-to-back calls within the TTL both miss — the handler
is invoked twice, not exactly once, because `if cached_result:` rejects the
stored falsy value. Both calls do succeed with the same result. -/
theorem C1_counterexample :
    (cache_result 60 "h" (pureHandler "h" (fun _ => "") 1) [3] ctx0).1 =
      Except.ok "" ∧
    (cache_result 60 "h" (pureHandler "h" (fun _ => "") 1) [3]
      ((cache_result 60 "h" (pureHandler "h" (fun _ => "") 1) [3] ctx0).2)).1 =
      Except.ok "" ∧
    invokeCount "h"
      ((cache_result 60 "h" (pureHandler "h" (fun _ => "") 1) [3]
        ((cache_result 60 "h" (pureHandler "h" (fun _ => "") 1) [3] ctx0).2)).2).trace
      ≠ 1 := by
  refine ⟨by decide, by decide, by decide⟩

/-- C1 amended: with the backend available and no prior entry for the key,
calling the cache-wrapped handler twice within `T` seconds invokes the
handler exactly once and returns the same result both times, provided the
handler's stored result is truthy (non-empty); a falsy result is never served
from the cache, so such a handler is re-invoked on the second call. -/
theorem C1_amended (name : String) (f : List Nat → Val) (cost T w : Nat)
    (args : List Nat) (ctx : Ctx)
    (havail : ctx.redis.available = true)
    (hcold : redisLookup ctx.redis ctx.now (cache_key name args) = none)
    (htruthy : truthy (f args) = true)
    (hw : w < T) :
    (cache_result T name (pureHandler name f cost) args ctx).1 =
        Except.ok (f args) ∧
    (cache_result T name (pureHandler name f cost) args
        (advance w (cache_result T name (pureHandler name f cost) args ctx).2)).1 =
        Except.ok (f args) ∧
    invokeCount name
      (cache_result T name (pureHandler name f cost) args
        (advance w (cache_result T name (pureHandler name f cost) args ctx).2)).2.trace =
      invokeCount name ctx.trace + 1 := by
  have havail2 : ({ ctx with
      trace := ctx.trace ++ [Event.cacheGet (cache_key name args)] } : Ctx).redis.available
      = true := havail
  have hrun1 : cache_result T name (pureHandler name f cost) args ctx =
      (Except.ok (f args),
       { now := ctx.now + cost,
         redis := { store := (cache_key name args, f args, ctx.now + cost + T) ::
                      ctx.redis.store,
                    available := ctx.redis.available },
         users := ctx.users, posts := ctx.posts,
         trace := (ctx.trace ++ [Event.cacheGet (cache_key name args)]) ++
           [Event.invoke name, Event.cacheSet (cache_key name args) T] }) := by
    rw [cache_result_miss_eq T name (pureHandler name f cost) args ctx havail hcold,
        cacheMiss_pure_eq T (cache_key name args) name f cost args _ havail2]
  have hadv : advance w (cache_result T name (pureHandler name f cost) args ctx).2 =
      { now := ctx.now + cost + w,
        redis := { store := (cache_key name args, f args, ctx.now + cost + T) ::
                     ctx.redis.store,
                   available := ctx.redis.available },
        users := ctx.users, posts := ctx.posts,
        trace := (ctx.trace ++ [Event.cacheGet (cache_key name args)]) ++
          [Event.invoke name, Event.cacheSet (cache_key name args) T] } := by
    rw [hrun1]
    rfl
  have hhit : redisLookup
      { store := (cache_key name args, f args, ctx.now + cost + T) ::
          ctx.redis.store,
        available := ctx.redis.available }
      (ctx.now + cost + w) (cache_key name args) = some (f args) := by
    rw [redisLookup_cons_self, if_pos (by omega)]
  have hrun2 := cache_result_hit_eq T name (pureHandler name f cost) args
      { now := ctx.now + cost + w,
        redis := { store := (cache_key name args, f args, ctx.now + cost + T) ::
                     ctx.redis.store,
                   available := ctx.redis.available },
        users := ctx.users, posts := ctx.posts,
        trace := (ctx.trace ++ [Event.cacheGet (cache_key name args)]) ++
          [Event.invoke name, Event.cacheSet (cache_key name args) T] }
      (f args) havail hhit htruthy
  refine ⟨by rw [hrun1], by rw [hadv, hrun2], ?_⟩
  rw [hadv, hrun2]
  simp [invokeCount, isInvoke, List.filter_append]

/-- Witness for C1 at concrete inputs. -/
theorem C1_witness :
    ctx0.redis.available = true ∧
    redisLookup ctx0.redis ctx0.now (cache_key "h" [3]) = none ∧
    truthy ((fun _ => "6") ([3] : List Nat)) = true ∧
    3 < 5 ∧
    invokeCount "h"
      (cache_result 5 "h" (pureHandler "h" (fun _ => "6") 1) [3]
        (advance 3 (cache_result 5 "h" (pureHandler "h" (fun _ => "6") 1) [3] ctx0).2)).2.trace =
      invokeCount "h" ctx0.trace + 1 :=
  ⟨by decide, by decide, by decide, by decide,
   (C1_amended "h" (fun _ => "6") 1 5 3 [3] ctx0 (by decide) (by decide)
      (by decide) (by decide)).2.2⟩

/-- C4: if the handler raises, the cache-wrapped call raises the same error,
no cache entry is stored (the Redis state is unchanged), and a subsequent
call within the TTL window invokes the handler again. -/
theorem C4_holds (name msg : String) (cost T w : Nat) (args : List Nat)
    (ctx : Ctx)
    (havail : ctx.redis.available = true)
    (hcold : redisLookup ctx.redis ctx.now (cache_key name args) = none) :
    (cache_result T name (failingHandler name msg cost) args ctx).1 =
        Except.error (PyError.handlerError msg) ∧
    (cache_result T name (failingHandler name msg cost) args ctx).2.redis =
        ctx.redis ∧
    (cache_result T name (failingHandler name msg cost) args
        (advance w (cache_result T name (failingHandler name msg cost) args ctx).2)).1 =
        Except.error (PyError.handlerError msg) ∧
    invokeCount name
      (cache_result T name (failingHandler name msg cost) args
        (advance w (cache_result T name (failingHandler name msg cost) args ctx).2)).2.trace =
      invokeCount name ctx.trace + 2 := by
  have havail2 : ({ ctx with
      trace := ctx.trace ++ [Event.cacheGet (cache_key name args)] } : Ctx).redis.available
      = true := havail
  have hrun1 : cache_result T name (failingHandler name msg cost) args ctx =
      (Except.error (PyError.handlerError msg),
       { now := ctx.now + cost,
         redis := ctx.redis,
         users := ctx.users, posts := ctx.posts,
         trace := (ctx.trace ++ [Event.cacheGet (cache_key name args)]) ++
           [Event.invoke name] }) := by
    rw [cache_result_miss_eq T name (failingHandler name msg cost) args ctx havail hcold,
        cacheMiss_failing_eq]
  have hadv : advance w (cache_result T name (failingHandler name msg cost) args ctx).2 =
      { now := ctx.now + cost + w,
        redis := ctx.redis,
        users := ctx.users, posts := ctx.posts,
        trace := (ctx.trace ++ [Event.cacheGet (cache_key name args)]) ++
          [Event.invoke name] } := by
    rw [hrun1]
    rfl
  have hcold2 : redisLookup ctx.redis (ctx.now + cost + w) (cache_key name args) = none :=
    redisLookup_none_mono hcold (by omega)
  have hrun2 : cache_result T name (failingHandler name msg cost) args
      { now := ctx.now + cost + w,
        redis := ctx.redis,
        users := ctx.users, posts := ctx.posts,
        trace := (ctx.trace ++ [Event.cacheGet (cache_key name args)]) ++
          [Event.invoke name] } =
      (Except.error (PyError.handlerError msg),
       { now := ctx.now + cost + w + cost,
         redis := ctx.redis,
         users := ctx.users, posts := ctx.posts,
         trace := ((((ctx.trace ++ [Event.cacheGet (cache_key name args)]) ++
           [Event.invoke name]) ++ [Event.cacheGet (cache_key name args)]) ++
           [Event.invoke name]) }) := by
    rw [cache_result_miss_eq T name (failingHandler name msg cost) args
          { now := ctx.now + cost + w,
            redis := ctx.redis,
            users := ctx.users, posts := ctx.posts,
            trace := (ctx.trace ++ [Event.cacheGet (cache_key name args)]) ++
              [Event.invoke name] }
          havail hcold2,
        cacheMiss_failing_eq]
  refine ⟨by rw [hrun1], by rw [hrun1], by rw [hadv, hrun2], ?_⟩
  rw [hadv, hrun2]
  simp [invokeCount, isInvoke, List.filter_append]

/-- Witness for C4 at concrete inputs. -/
theorem C4_witness :
    ctx0.redis.available = true ∧
    redisLookup ctx0.redis ctx0.now (cache_key "h" [3]) = none ∧
    (cache_result 60 "h" (failingHandler "h" "boom" 1) [3] ctx0).2.redis =
      ctx0.redis :=
  ⟨by decide, by decide,
   (C4_holds "h" "boom" 1 60 2 [3] ctx0 (by decide) (by decide)).2.1⟩

/-- C5: once the TTL has elapsed (the stored entry's expiry time has been
reached), a further call behaves as if the entry were absent even though the
stale entry is still physically in the store: the handler is invoked again,
its result is returned, and a fresh entry with a fresh expiry is stored. -/
theorem C5_holds (name : String) (f : List Nat → Val) (cost T : Nat)
    (args : List Nat) (ctx : Ctx) (v : Val) (e : Nat)
    (havail : ctx.redis.available = true)
    (hstale : ctx.redis.store.find? (fun en => en.1 == cache_key name args) =
        some (cache_key name args, v, e))
    (hexp : e ≤ ctx.now) :
    (cache_result T name (pureHandler name f cost) args ctx).1 =
        Except.ok (f args) ∧
    invokeCount name
        (cache_result T name (pureHandler name f cost) args ctx).2.trace =
      invokeCount name ctx.trace + 1 ∧
    (cache_result T name (pureHandler name f cost) args ctx).2.redis.store.find?
        (fun en => en.1 == cache_key name args) =
      some (cache_key name args, f args, ctx.now + cost + T) := by
  have hmiss : redisLookup ctx.redis ctx.now (cache_key name args) = none := by
    rw [redisLookup, hstale]
    show (if ctx.now < e then some v else none) = none
    rw [if_neg (by omega)]
  have havail2 : ({ ctx with
      trace := ctx.trace ++ [Event.cacheGet (cache_key name args)] } : Ctx).redis.available
      = true := havail
  have hrun1 : cache_result T name (pureHandler name f cost) args ctx =
      (Except.ok (f args),
       { now := ctx.now + cost,
         redis := { store := (cache_key name args, f args, ctx.now + cost + T) ::
                      ctx.redis.store,
                    available := ctx.redis.available },
         users := ctx.users, posts := ctx.posts,
         trace := (ctx.trace ++ [Event.cacheGet (cache_key name args)]) ++
           [Event.invoke name, Event.cacheSet (cache_key name args) T] }) := by
    rw [cache_result_miss_eq T name (pureHandler name f cost) args ctx havail hmiss,
        cacheMiss_pure_eq T (cache_key name args) name f cost args _ havail2]
  refine ⟨by rw [hrun1], ?_, ?_⟩
  · rw [hrun1]
    simp [invokeCount, isInvoke, List.filter_append]
  · rw [hrun1]
    simp [List.find?]

/-- Witness for C5 at concrete inputs: the stale entry for the key is
physically present but expired, and the call re-invokes the handler and
stores a fresh entry. -/
theorem C5_witness :
    (({ now := 10,
        redis := { store := [(cache_key "h" [3], "6", 7)], available := true },
        users := [], posts := [], trace := [] } : Ctx)).redis.available = true ∧
    (cache_result 5 "h" (pureHandler "h" (fun _ => "6") 1) [3]
      { now := 10,
        redis := { store := [(cache_key "h" [3], "6", 7)], available := true },
        users := [], posts := [], trace := [] }).1 = Except.ok "6" :=
  ⟨by decide,
   (C5_holds "h" (fun _ => "6") 1 5 [3]
      { now := 10,
        redis := { store := [(cache_key "h" [3], "6", 7)], available := true },
        users := [], posts := [], trace := [] }
      "6" 7 (by decide) (by decide) (by decide)).1⟩

/-- C10: a stored value that is falsy (empty bytes) is treated as a cache
miss even within the TTL: the handler is re-invoked and its result re-stored,
because `if cached_result:` only short-circuits on a truthy stored value. -/
theorem C10_holds (name : String) (f : List Nat → Val) (cost T : Nat)
    (args : List Nat) (ctx : Ctx)
    (havail : ctx.redis.available = true)
    (hfalsy : redisLookup ctx.redis ctx.now (cache_key name args) = some "") :
    (cache_result T name (pureHandler name f cost) args ctx).1 =
        Except.ok (f args) ∧
    invokeCount name
        (cache_result T name (pureHandler name f cost) args ctx).2.trace =
      invokeCount name ctx.trace + 1 ∧
    (cache_result T name (pureHandler name f cost) args ctx).2.redis.store.find?
        (fun en => en.1 == cache_key name args) =
      some (cache_key name args, f args, ctx.now + cost + T) := by
  have havail2 : ({ ctx with
      trace := ctx.trace ++ [Event.cacheGet (cache_key name args)] } : Ctx).redis.available
      = true := havail
  have hrun1 : cache_result T name (pureHandler name f cost) args ctx =
      (Except.ok (f args),
       { now := ctx.now + cost,
         redis := { store := (cache_key name args, f args, ctx.now + cost + T) ::
                      ctx.redis.store,
                    available := ctx.redis.available },
         users := ctx.users, posts := ctx.posts,
         trace := (ctx.trace ++ [Event.cacheGet (cache_key name args)]) ++
           [Event.invoke name, Event.cacheSet (cache_key name args) T] }) := by
    rw [cache_result_falsy_eq T name (pureHandler name f cost) args ctx havail hfalsy,
        cacheMiss_pure_eq T (cache_key name args) name f cost args _ havail2]
  refine ⟨by rw [hrun1], ?_, ?_⟩
  · rw [hrun1]
    simp [invokeCount, isInvoke, List.filter_append]
  · rw [hrun1]
    simp [List.find?]

/-- Witness for C10 at concrete inputs: a valid but empty stored value is
ignored and the handler runs. -/
theorem C10_witness :
    (({ now := 0,
        redis := { store := [(cache_key "h" [3], "", 50)], available := true },
        users := [], posts := [], trace := [] } : Ctx)).redis.available = true ∧
    redisLookup
      ({ now := 0,
         redis := { store := [(cache_key "h" [3], "", 50)], available := true },
         users := [], posts := [], trace := [] } : Ctx).redis 0
      (cache_key "h" [3]) = some "" ∧
    invokeCount "h"
      (cache_result 60 "h" (pureHandler "h" (fun _ => "6") 1) [3]
        { now := 0,
          redis := { store := [(cache_key "h" [3], "", 50)], available := true },
          users := [], posts := [], trace := [] }).2.trace = 1 :=
  ⟨by decide, by decide,
   (C10_holds "h" (fun _ => "6") 1 60 [3]
      { now := 0,
        redis := { store := [(cache_key "h" [3], "", 50)], available := true },
        users := [], posts := [], trace := [] }
      (by decide) (by decide)).2.1⟩

/-- C6: the instrumentation wrapper is result-transparent and invokes the
inner handler exactly once — its outcome and all non-trace state components
are exactly those of the single inner call, and it adds no handler
invocations to the trace; and in the `get_posts` composition the
instrumentation sits outside the cache wrapper, so a cache-hit short-circuit
is still timed: one timing record is emitted and the base handler does not
run. -/
theorem C6_holds :
    (∀ (α : Type) (name : String) (func : α → PyM Val) (a : α) (ctx : Ctx),
      (performance_metrics name func a ctx).1 = (func a ctx).1 ∧
      (performance_metrics name func a ctx).2.now = (func a ctx).2.now ∧
      (performance_metrics name func a ctx).2.redis = (func a ctx).2.redis ∧
      (performance_metrics name func a ctx).2.users = (func a ctx).2.users ∧
      (performance_metrics name func a ctx).2.posts = (func a ctx).2.posts ∧
      (∀ nm, invokeCount nm (performance_metrics name func a ctx).2.trace =
          invokeCount nm (func a ctx).2.trace)) ∧
    (∀ (ctx : Ctx) (v : Val),
      ctx.redis.available = true →
      redisLookup ctx.redis ctx.now (cache_key "get_posts" []) = some v →
      truthy v = true →
      (get_posts [] ctx).1 = Except.ok v ∧
      recordCount (get_posts [] ctx).2.trace = recordCount ctx.trace + 1 ∧
      invokeCount "get_posts" (get_posts [] ctx).2.trace =
        invokeCount "get_posts" ctx.trace) := by
  constructor
  · intro α name func a ctx
    rcases hfa : func a ctx with ⟨r, ctx1⟩
    cases r with
    | ok v =>
      simp [performance_metrics, hfa, invokeCount, List.filter_append, isInvoke]
    | error e =>
      simp [performance_metrics, hfa]
  · intro ctx v havail hhit htr
    have hinner := cache_result_hit_eq 120 "get_posts" get_posts_base [] ctx v
      havail hhit htr
    have hgp : get_posts [] ctx =
        (Except.ok v,
         { ctx with trace := (ctx.trace ++ [Event.cacheGet (cache_key "get_posts" [])]) ++
             [Event.record ⟨"get_posts", ctx.now, ctx.now, ctx.now - ctx.now⟩] }) := by
      show performance_metrics "get_posts"
        (cache_result 120 "get_posts" get_posts_base) [] ctx = _
      rw [performance_metrics]
      simp only [hinner]
    rw [hgp]
    refine ⟨rfl, ?_, ?_⟩
    · simp [recordCount, isRecord, List.filter_append]
    · simp [invokeCount, isInvoke, List.filter_append]

/-- Witness for C6 at concrete inputs: a cache hit through the composed
`get_posts` route is still timed. -/
theorem C6_witness :
    (({ now := 0,
        redis := { store := [(cache_key "get_posts" [], "cached", 50)],
                   available := true },
        users := [], posts := [], trace := [] } : Ctx)).redis.available = true ∧
    (get_posts []
      { now := 0,
        redis := { store := [(cache_key "get_posts" [], "cached", 50)],
                   available := true },
        users := [], posts := [], trace := [] }).1 = Except.ok "cached" :=
  ⟨by decide,
   (C6_holds.2
      { now := 0,
        redis := { store := [(cache_key "get_posts" [], "cached", 50)],
                   available := true },
        users := [], posts := [], trace := [] }
      "cached" (by decide) (by decide) (by decide)).1⟩

/-- C7: the mutating handlers `add_user` and `add_post` are composed with
instrumentation only: they leave the Redis state unchanged, add no cache
events (get or set) to the trace, and in `add_post` the background dispatch
event appears only after the database commit event in the appended trace. -/
theorem C7_holds (username email : String) (uid : Nat) (content : String)
    (ctx : Ctx) :
    (add_user (username, email) ctx).2.redis = ctx.redis ∧
    (add_post (uid, content) ctx).2.redis = ctx.redis ∧
    (∀ ev ∈ (add_user (username, email) ctx).2.trace,
        ev ∈ ctx.trace ∨ isCacheEvent ev = false) ∧
    (∀ ev ∈ (add_post (uid, content) ctx).2.trace,
        ev ∈ ctx.trace ∨ isCacheEvent ev = false) ∧
    (∃ pre post2,
        (add_post (uid, content) ctx).2.trace =
          ctx.trace ++ pre ++ [Event.dispatch "long_running_task" uid] ++ post2 ∧
        Event.dbCommit ∈ pre ∧
        ∀ t u, Event.dispatch t u ∉ pre) := by
  have hu : add_user (username, email) ctx =
      (Except.ok "\x7b\"message\": \"User added\"\x7d",
       { now := ctx.now,
         redis := ctx.redis,
         users := ctx.users ++ [⟨ctx.users.length + 1, username, email⟩],
         posts := ctx.posts,
         trace := (ctx.trace ++ [Event.invoke "add_user", Event.dbCommit]) ++
           [Event.record ⟨"add_user", ctx.now, ctx.now, ctx.now - ctx.now⟩] }) := by
    show performance_metrics "add_user" add_user_base (username, email) ctx = _
    rw [performance_metrics]
    simp [add_user_base]
  have hp : add_post (uid, content) ctx =
      (Except.ok "\x7b\"message\": \"Post added\"\x7d",
       { now := ctx.now,
         redis := ctx.redis,
         users := ctx.users,
         posts := ctx.posts ++ [⟨ctx.posts.length + 1, uid, content⟩],
         trace := ((ctx.trace ++ [Event.invoke "add_post", Event.dbCommit]) ++
           [Event.dispatch "long_running_task" uid]) ++
           [Event.record ⟨"add_post", ctx.now, ctx.now, ctx.now - ctx.now⟩] }) := by
    show performance_metrics "add_post" add_post_base (uid, content) ctx = _
    rw [performance_metrics]
    simp [add_post_base, threadStart]
  refine ⟨by rw [hu], by rw [hp], ?_, ?_, ?_⟩
  · intro ev hev
    rw [hu] at hev
    simp only [List.mem_append, List.mem_cons, List.mem_singleton,
      List.not_mem_nil, or_false] at hev
    rcases hev with (h | h | h) | h
    · exact Or.inl h
    · right; rw [h]; rfl
    · right; rw [h]; rfl
    · right; rw [h]; rfl
  · intro ev hev
    rw [hp] at hev
    simp only [List.mem_append, List.mem_cons, List.mem_singleton,
      List.not_mem_nil, or_false] at hev
    rcases hev with ((h | h | h) | h) | h
    · exact Or.inl h
    · right; rw [h]; rfl
    · right; rw [h]; rfl
    · right; rw [h]; rfl
    · right; rw [h]; rfl
  · refine ⟨[Event.invoke "add_post", Event.dbCommit],
      [Event.record ⟨"add_post", ctx.now, ctx.now, ctx.now - ctx.now⟩],
      ?_, by simp, by intro t u; simp⟩
    rw [hp]

/-- Witness for C3 at concrete inputs. -/
theorem C3_witness :
    ctx0.now ≤ ((pureHandler "h" (fun _ => "6") 2) [] ctx0).2.now ∧
    performance_metrics "h" (pureHandler "h" (fun _ => "6") 2) [] ctx0 =
      (Except.ok "6",
       { now := 2, redis := { store := [], available := true },
         users := [], posts := [],
         trace := [Event.invoke "h", Event.record ⟨"h", 0, 2, 2⟩] }) :=
  ⟨by decide,
   ((C3_amended (List Nat) "h" (pureHandler "h" (fun _ => "6") 2) [] ctx0
      (by decide)).1 "6"
      { now := 2, redis := { store := [], available := true },
        users := [], posts := [], trace := [Event.invoke "h"] }
      (by decide)).1⟩

end BPT
